import Mathlib

/-! Ad Speed Insights: the tag-load-time audit and the resource classifier.

A shallow embedding of `audits/tag-load-time.js` together with the number
semantics of JavaScript (IEEE-754 binary64, round to nearest, ties to even)
that the audit's arithmetic runs on, and of the predicates of
`utils/resource-classification` that `test/utils/resource-classification_test.js`
exercises.
-/

namespace AdSpeedInsights

/-! ## JavaScript numbers -/

/-- A JavaScript Number: NaN, the two infinities, negative zero, or a finite
value carried as an exact rational (`fin 0` is positive zero). -/
inductive JSNumber where
  | nan
  | posInf
  | negInf
  | negZero
  | fin (q : ℚ)
  deriving DecidableEq

namespace JSNumber

/-- Floor of the binary logarithm of `n` by repeated halving, at most `fuel`
times (0 for `n < 2`). -/
def log2Fuel : ℕ → ℕ → ℕ
  | 0, _ => 0
  | fuel + 1, n => if n < 2 then 0 else log2Fuel fuel (n / 2) + 1

/-- Floor of the binary logarithm of a natural number (0 for 0). -/
def natLog2 (n : ℕ) : ℕ := log2Fuel n n

/-- Floor of the binary logarithm of a positive rational. -/
def ilog2 (a : ℚ) : ℤ :=
  let e0 : ℤ := (natLog2 a.num.natAbs : ℤ) - (natLog2 a.den : ℤ)
  if (2 : ℚ) ^ e0 ≤ a then e0 else e0 - 1

/-- Round a non-negative rational to the nearest integer, ties to even. -/
def roundHalfEven (t : ℚ) : ℤ :=
  let f : ℤ := ⌊t⌋
  let r : ℚ := t - f
  if r < 1 / 2 then f
  else if 1 / 2 < r then f + 1
  else if f % 2 = 0 then f else f + 1

/-- The binary64 value nearest to an exact rational result: 53 significant
bits, quantum never below `2^-1074`, overflow to infinity at `2^1024`,
underflow to a zero of the same sign. -/
def round64 (q : ℚ) : JSNumber :=
  if q = 0 then fin 0
  else
    let a : ℚ := |q|
    let qe : ℤ := max (ilog2 a - 52) (-1074)
    let n : ℤ := roundHalfEven (a / (2 : ℚ) ^ qe)
    let m : ℚ := (n : ℚ) * (2 : ℚ) ^ qe
    if (2 : ℚ) ^ (1024 : ℤ) ≤ m then (if q < 0 then negInf else posInf)
    else if n = 0 then (if q < 0 then negZero else fin 0)
    else fin (if q < 0 then -m else m)

/-- The numeric value of a zero or finite number (0 for the others). -/
def fval : JSNumber → ℚ
  | fin q => q
  | _ => 0

/-- The sign bit: set for negative infinity, negative zero and negative
finite values. -/
def signBit : JSNumber → Bool
  | negInf => true
  | negZero => true
  | fin q => decide (q < 0)
  | _ => false

/-- Whether the number is one of the two infinities. -/
def isInf : JSNumber → Bool
  | posInf => true
  | negInf => true
  | _ => false

/-- Whether the number is one of the two zeros. -/
def isZero : JSNumber → Bool
  | negZero => true
  | fin q => decide (q = 0)
  | _ => false

/-- The relational operator `x < y`: false as soon as an operand is NaN. -/
def lt : JSNumber → JSNumber → Bool
  | nan, _ => false
  | _, nan => false
  | posInf, _ => false
  | _, negInf => false
  | negInf, _ => true
  | _, posInf => true
  | x, y => decide (fval x < fval y)

/-- The relational operator `x >= y`: the negation of `x < y`, except that it
is false as soon as an operand is NaN. -/
def ge (x y : JSNumber) : Bool :=
  if x = nan ∨ y = nan then false else !(lt x y)

/-- The operator `x - y` on Numbers. -/
def fsub : JSNumber → JSNumber → JSNumber
  | nan, _ => nan
  | _, nan => nan
  | posInf, posInf => nan
  | negInf, negInf => nan
  | posInf, _ => posInf
  | negInf, _ => negInf
  | _, posInf => negInf
  | _, negInf => posInf
  | x, y =>
    let d : ℚ := fval x - fval y
    if d = 0 then (if x = negZero ∧ y = fin 0 then negZero else fin 0)
    else round64 d

/-- The operator `x * y` on Numbers. -/
def fmul (x y : JSNumber) : JSNumber :=
  if x = nan ∨ y = nan then nan
  else if isInf x || isInf y then
    (if isZero x || isZero y then nan
     else if xor (signBit x) (signBit y) then negInf else posInf)
  else
    let p : ℚ := fval x * fval y
    if p = 0 then (if xor (signBit x) (signBit y) then negZero else fin 0)
    else round64 p

/-- The function `Math.round`: the nearest integer, ties towards positive
infinity; values in `[-0.5, -0]` give negative zero. -/
def mathRound : JSNumber → JSNumber
  | fin q => if -(1 / 2) ≤ q ∧ q < 0 then negZero else fin (⌊q + 1 / 2⌋ : ℤ)
  | x => x

/-- Insert a comma after every third digit of a reversed digit string. -/
def groupRev : List Char → List Char
  | a :: b :: c :: d :: rest => a :: b :: c :: ',' :: groupRev (d :: rest)
  | l => l

/-- The decimal digits of a natural number grouped in threes by commas. -/
def groupedDigits (n : ℕ) : String :=
  String.mk (groupRev (Nat.toDigits 10 n).reverse).reverse

/-- The method `Number.prototype.toLocaleString` in the default `en-US`
locale, on the values `Math.round` can return (integers, zeros, infinities,
NaN); of any other finite value only the integer part is printed. -/
def toLocaleString : JSNumber → String
  | nan => "NaN"
  | posInf => "∞"
  | negInf => "-∞"
  | negZero => "-0"
  | fin q => if q < 0 then "-" ++ groupedDigits ⌊-q⌋.natAbs else groupedDigits ⌊q⌋.natAbs

end JSNumber

open JSNumber

/-! ## The audit `tag-load-time` -/

/-- Point of diminishing returns. -/
def PODR : JSNumber := fin 500

/-- The median control point of the scoring curve. -/
def MEDIAN : JSNumber := fin 1000

/-- What the audit hands back to the host: either the not-applicable result
built by `auditNotApplicable(reason)` or the object
`{rawValue, score, displayValue}`. -/
inductive AuditProduct where
  | notApplicable (reason : String)
  | numeric (rawValue score : JSNumber) (displayValue : String)
  deriving DecidableEq

/-- Modelled from the spec: `auditNotApplicable` of `utils/builder`, the
"audit not applicable" result constructor, which carries the reason. -/
def auditNotApplicable (reason : String) : AuditProduct :=
  AuditProduct.notApplicable reason

/-- The method `TagLoadTime.audit`. The imported `getPageStartTime` and
`getTagEndTime` of `utils/network-timing` and the host's
`Audit.computeLogNormalScore` are parameters; `networkRecords` is the value the
host's `NetworkRecords.request` resolved to. -/
def audit {Records : Type} (getPageStartTime getTagEndTime : Records → JSNumber)
    (computeLogNormalScore : JSNumber → JSNumber → JSNumber → JSNumber)
    (networkRecords : Records) : AuditProduct :=
  let pageStartTime := getPageStartTime networkRecords
  let tagEndTime := getTagEndTime networkRecords
  if lt pageStartTime (fin 0) then
    auditNotApplicable "No successful network records"
  else if lt tagEndTime (fin 0) then
    auditNotApplicable "No tag loaded"
  else
    let tagLoadTime := fmul (fsub tagEndTime pageStartTime) (fin 1000)
    let normalScore := computeLogNormalScore tagLoadTime PODR MEDIAN
    -- Results that have green text should be under passing category.
    let normalScore := if ge normalScore (round64 (9 / 10)) then fin 1 else normalScore
    AuditProduct.numeric tagLoadTime normalScore
      (toLocaleString (mathRound tagLoadTime) ++ " ms")

/-- The raw measurement of a numeric result. -/
def AuditProduct.rawValue? : AuditProduct → Option JSNumber
  | AuditProduct.numeric r _ _ => some r
  | AuditProduct.notApplicable _ => none

/-! ## The resource classifier -/

/-- A parsed URL, already decomposed by the caller. -/
structure ParsedURL where
  scheme : String
  host : String
  path : String
  query : String
  fragment : String
  deriving DecidableEq

/-- The labels of a host name: the pieces between its dots. -/
def splitLabels : List Char → List (List Char)
  | [] => [[]]
  | c :: cs =>
    if c = '.' then [] :: splitLabels cs
    else
      match splitLabels cs with
      | [] => [[c]]
      | l :: ls => (c :: l) :: ls

/-- Put the dots back between the labels. -/
def joinLabels : List (List Char) → List Char
  | [] => []
  | [l] => l
  | l :: l2 :: ls => l ++ '.' :: joinLabels (l2 :: ls)

/-- Modelled from the spec: the fixed allow-list of ad-network hosts of
`utils/resource-classification`. -/
def AD_HOSTS : List String := ["doubleclick.net", "googlesyndication.com"]

/-- Modelled from the spec: `isGoogleAds` of `utils/resource-classification`:
the host equals, or is a subdomain of, a host of the allow-list, by a suffix
match on the label sequence, case-insensitive on the host. -/
def isGoogleAds (url : ParsedURL) : Bool :=
  AD_HOSTS.any fun h => (splitLabels h.toList).isSuffixOf (splitLabels (url.host.toList.map Char.toLower))

/-- Whether `pat` occurs in `s` at some position, as `String.prototype.includes`
decides it. -/
def includes : List Char → List Char → Bool
  | [], pat => pat.isEmpty
  | c :: cs, pat => pat.isPrefixOf (c :: cs) || includes cs pat

/-- Whether `s` ends with `suffix`, as `String.prototype.endsWith` decides it:
the last `suffix.length` characters of `s` are compared with `suffix`. -/
def endsWith (s suffix : List Char) : Bool :=
  suffix.length ≤ s.length && s.drop (s.length - suffix.length) == suffix

/-- Modelled from the spec: `hasAdRequestPath` of
`utils/resource-classification`: the path contains `/gampad/ads`. -/
def hasAdRequestPath (url : ParsedURL) : Bool :=
  includes url.path.toList "/gampad/ads".toList

/-- Modelled from the spec: `hasImpressionPath` of
`utils/resource-classification`: the path contains `/pcs/view` or
`/pagead/adview`. -/
def hasImpressionPath (url : ParsedURL) : Bool :=
  includes url.path.toList "/pcs/view".toList ||
    includes url.path.toList "/pagead/adview".toList

/-- Modelled from the spec: `isGptTag` of `utils/resource-classification`: the
path ends with `/tag/js/gpt.js`. -/
def isGptTag (url : ParsedURL) : Bool :=
  endsWith url.path.toList "/tag/js/gpt.js".toList

/-! ## Facts about the number model -/

theorem lt_false_of_ge {x y : JSNumber} (h : ge x y = true) : lt x y = false := by
  unfold ge at h
  split at h
  · simp at h
  · simpa using h

/-- The literal `.9` of the audit, as the binary64 value it denotes. -/
theorem lit_point_nine :
    round64 (9 / 10) = fin (8106479329266893 / 9007199254740992) := by decide!

theorem roundHalfEven_nonneg {t : ℚ} (ht : 0 ≤ t) : 0 ≤ roundHalfEven t := by
  have hf : (0 : ℤ) ≤ ⌊t⌋ := Int.floor_nonneg.mpr ht
  unfold roundHalfEven
  simp only []
  split_ifs <;> omega

/-- Rounding a positive exact result never gives a negative number. -/
theorem round64_of_pos {q : ℚ} (hq : 0 < q) :
    round64 q = posInf ∨ ∃ m : ℚ, 0 ≤ m ∧ round64 q = fin m := by
  have hn : 0 ≤ roundHalfEven (|q| / (2 : ℚ) ^ (max (ilog2 |q| - 52) (-1074))) :=
    roundHalfEven_nonneg (div_nonneg (abs_nonneg q) (by positivity))
  unfold round64
  simp only [ne_of_gt hq, not_lt.mpr (le_of_lt hq), if_false]
  split_ifs
  · exact Or.inl rfl
  · exact Or.inr ⟨0, le_refl 0, rfl⟩
  · exact Or.inr ⟨_, mul_nonneg (by exact_mod_cast hn) (by positivity), rfl⟩

/-- Scaling a number that is not negative by 1000 gives a number that is not
negative. -/
theorem fmul_thousand_of_nonneg {m : ℚ} (hm : 0 ≤ m) :
    lt (fmul (fin m) (fin 1000)) (fin 0) = false := by
  rcases eq_or_lt_of_le hm with h | h
  · subst h
    decide!
  · have hp : 0 < m * 1000 := by positivity
    have hne : ¬ (m = 0) := ne_of_gt h
    rcases round64_of_pos hp with h1 | ⟨k, hk, h1⟩
    · simp [fmul, isInf, fval, hne, h1, lt]
    · simp [fmul, isInf, fval, hne, h1, lt, hk]

theorem fmul_round64_not_neg {d : ℚ} (hd : 0 < d) :
    lt (fmul (round64 d) (fin 1000)) (fin 0) = false := by
  rcases round64_of_pos hd with h | ⟨m, hm, h⟩
  · rw [h]
    decide!
  · rw [h]
    exact fmul_thousand_of_nonneg hm

/-- The exact difference of two zero or finite numbers, rounded as `fsub` does
it, then scaled by 1000, is not negative when the difference is not. -/
theorem fmul_diff_not_neg (x y : JSNumber) (d : ℚ) (hd : 0 ≤ d) :
    lt (fmul (if d = 0 then (if x = negZero ∧ y = fin 0 then negZero else fin 0)
      else round64 d) (fin 1000)) (fin 0) = false := by
  rcases eq_or_lt_of_le hd with h | h
  · rw [if_pos h.symm]
    split_ifs <;> decide!
  · rw [if_neg (ne_of_gt h)]
    exact fmul_round64_not_neg h

/-- Elapsed time in milliseconds is not negative when the tag end time is
`>=` the page start time. -/
theorem elapsed_not_neg_of_ge (t p : JSNumber) (h : ge t p = true) :
    lt (fmul (fsub t p) (fin 1000)) (fin 0) = false := by
  cases t with
  | nan => simp [ge] at h
  | posInf =>
    cases p with
    | nan => simp [ge] at h
    | posInf => decide!
    | negInf => decide!
    | negZero => decide!
    | fin b =>
      show lt (fmul posInf (fin 1000)) (fin 0) = false
      decide!
  | negInf =>
    cases p with
    | negInf => decide!
    | fin b => simp [ge, lt] at h
    | _ => revert h; decide!
  | negZero =>
    cases p with
    | fin b =>
      have hb : ¬ (0 < b) := by simpa [ge, lt, fval] using h
      exact fmul_diff_not_neg negZero (fin b) (fval negZero - fval (fin b))
        (by simp only [fval]; linarith)
    | negZero => decide!
    | _ => revert h; decide!
  | fin a =>
    cases p with
    | nan => simp [ge] at h
    | posInf => simp [ge, lt] at h
    | negInf =>
      show lt (fmul posInf (fin 1000)) (fin 0) = false
      decide!
    | negZero =>
      have ha : ¬ (a < 0) := by simpa [ge, lt, fval] using h
      exact fmul_diff_not_neg (fin a) negZero (fval (fin a) - fval negZero)
        (by simp only [fval]; linarith)
    | fin b =>
      have hab : ¬ (a < b) := by simpa [ge, lt, fval] using h
      exact fmul_diff_not_neg (fin a) (fin b) (fval (fin a) - fval (fin b))
        (by simp only [fval]; linarith)

/-! ## The not-applicable results -/

/-- C1: whatever the tag end time is, a negative page start time makes the
audit return the not-applicable result with reason "No successful network
records", and no numeric result. -/
theorem audit_no_successful_records {Records : Type}
    (getPageStartTime getTagEndTime : Records → JSNumber)
    (computeLogNormalScore : JSNumber → JSNumber → JSNumber → JSNumber)
    (networkRecords : Records)
    (hstart : lt (getPageStartTime networkRecords) (fin 0) = true) :
    audit getPageStartTime getTagEndTime computeLogNormalScore networkRecords
        = AuditProduct.notApplicable "No successful network records"
      ∧ (audit getPageStartTime getTagEndTime computeLogNormalScore
          networkRecords).rawValue? = none := by
  have h : audit getPageStartTime getTagEndTime computeLogNormalScore networkRecords
      = AuditProduct.notApplicable "No successful network records" := by
    simp [audit, hstart, auditNotApplicable]
  exact ⟨h, by rw [h]; rfl⟩

/-- Witness of C1: page start and tag end both absent (the sentinel -1). -/
theorem audit_no_successful_records_witness :
    lt (fin (-1)) (fin 0) = true
      ∧ audit (fun _ : Unit => fin (-1)) (fun _ => fin (-1)) (fun _ _ _ => fin 0) ()
          = AuditProduct.notApplicable "No successful network records"
      ∧ (audit (fun _ : Unit => fin (-1)) (fun _ => fin (-1)) (fun _ _ _ => fin 0)
          ()).rawValue? = none :=
  ⟨by decide!,
    audit_no_successful_records (fun _ : Unit => fin (-1)) (fun _ => fin (-1))
      (fun _ _ _ => fin 0) () (by decide!)⟩

/-- C2: with a page start time `>= 0`, a negative tag end time makes the audit
return the not-applicable result with reason "No tag loaded", and no numeric
result. -/
theorem audit_no_tag_loaded {Records : Type}
    (getPageStartTime getTagEndTime : Records → JSNumber)
    (computeLogNormalScore : JSNumber → JSNumber → JSNumber → JSNumber)
    (networkRecords : Records)
    (hstart : ge (getPageStartTime networkRecords) (fin 0) = true)
    (htag : lt (getTagEndTime networkRecords) (fin 0) = true) :
    audit getPageStartTime getTagEndTime computeLogNormalScore networkRecords
        = AuditProduct.notApplicable "No tag loaded"
      ∧ (audit getPageStartTime getTagEndTime computeLogNormalScore
          networkRecords).rawValue? = none := by
  have h : audit getPageStartTime getTagEndTime computeLogNormalScore networkRecords
      = AuditProduct.notApplicable "No tag loaded" := by
    simp [audit, lt_false_of_ge hstart, htag, auditNotApplicable]
  exact ⟨h, by rw [h]; rfl⟩

/-- Witness of C2: the page starts at 0.1 s and no tag record exists. -/
theorem audit_no_tag_loaded_witness :
    ge (round64 (1 / 10)) (fin 0) = true ∧ lt (fin (-1)) (fin 0) = true
      ∧ audit (fun _ : Unit => round64 (1 / 10)) (fun _ => fin (-1))
          (fun _ _ _ => fin 0) () = AuditProduct.notApplicable "No tag loaded"
      ∧ (audit (fun _ : Unit => round64 (1 / 10)) (fun _ => fin (-1))
          (fun _ _ _ => fin 0) ()).rawValue? = none :=
  ⟨by decide!, by decide!,
    audit_no_tag_loaded (fun _ : Unit => round64 (1 / 10)) (fun _ => fin (-1))
      (fun _ _ _ => fin 0) () (by decide!) (by decide!)⟩

/-! ## The numeric result -/

/-- Once both guards are passed the audit returns the numeric object. -/
theorem audit_of_guards_passed {Records : Type}
    (getPageStartTime getTagEndTime : Records → JSNumber)
    (computeLogNormalScore : JSNumber → JSNumber → JSNumber → JSNumber)
    (networkRecords : Records)
    (hstart : lt (getPageStartTime networkRecords) (fin 0) = false)
    (htag : lt (getTagEndTime networkRecords) (fin 0) = false) :
    audit getPageStartTime getTagEndTime computeLogNormalScore networkRecords
      = AuditProduct.numeric
          (fmul (fsub (getTagEndTime networkRecords) (getPageStartTime networkRecords))
            (fin 1000))
          (if ge (computeLogNormalScore
                (fmul (fsub (getTagEndTime networkRecords)
                  (getPageStartTime networkRecords)) (fin 1000))
                (fin 500) (fin 1000)) (round64 (9 / 10))
           then fin 1
           else computeLogNormalScore
                (fmul (fsub (getTagEndTime networkRecords)
                  (getPageStartTime networkRecords)) (fin 1000))
                (fin 500) (fin 1000))
          (toLocaleString (mathRound
            (fmul (fsub (getTagEndTime networkRecords) (getPageStartTime networkRecords))
              (fin 1000))) ++ " ms") := by
  simp [audit, hstart, htag, PODR, MEDIAN]

/-- A numeric result means that both guards were passed. -/
theorem guards_passed_of_numeric {Records : Type}
    (getPageStartTime getTagEndTime : Records → JSNumber)
    (computeLogNormalScore : JSNumber → JSNumber → JSNumber → JSNumber)
    (networkRecords : Records) (rawValue score : JSNumber) (displayValue : String)
    (h : audit getPageStartTime getTagEndTime computeLogNormalScore networkRecords
      = AuditProduct.numeric rawValue score displayValue) :
    lt (getPageStartTime networkRecords) (fin 0) = false
      ∧ lt (getTagEndTime networkRecords) (fin 0) = false := by
  cases h1 : lt (getPageStartTime networkRecords) (fin 0)
  · cases h2 : lt (getTagEndTime networkRecords) (fin 0)
    · exact ⟨rfl, rfl⟩
    · simp [audit, h1, h2, auditNotApplicable] at h
  · simp [audit, h1, auditNotApplicable] at h

/-- C3: with page start time and tag end time both `>= 0`, the audit returns a
numeric result whose rawValue is `(tagEndTime - pageStartTime) * 1000`, and
its score is computed from the scoring curve called on that value with the
control points 500 and 1000. -/
theorem audit_rawValue_is_elapsed_ms {Records : Type}
    (getPageStartTime getTagEndTime : Records → JSNumber)
    (computeLogNormalScore : JSNumber → JSNumber → JSNumber → JSNumber)
    (networkRecords : Records)
    (hstart : ge (getPageStartTime networkRecords) (fin 0) = true)
    (htag : ge (getTagEndTime networkRecords) (fin 0) = true) :
    audit getPageStartTime getTagEndTime computeLogNormalScore networkRecords
      = AuditProduct.numeric
          (fmul (fsub (getTagEndTime networkRecords) (getPageStartTime networkRecords))
            (fin 1000))
          (if ge (computeLogNormalScore
                (fmul (fsub (getTagEndTime networkRecords)
                  (getPageStartTime networkRecords)) (fin 1000))
                (fin 500) (fin 1000)) (round64 (9 / 10))
           then fin 1
           else computeLogNormalScore
                (fmul (fsub (getTagEndTime networkRecords)
                  (getPageStartTime networkRecords)) (fin 1000))
                (fin 500) (fin 1000))
          (toLocaleString (mathRound
            (fmul (fsub (getTagEndTime networkRecords) (getPageStartTime networkRecords))
              (fin 1000))) ++ " ms") :=
  audit_of_guards_passed getPageStartTime getTagEndTime computeLogNormalScore
    networkRecords (lt_false_of_ge hstart) (lt_false_of_ge htag)

/-- Witness of C3: page start at 2 s, tag end at 3.5 s, elapsed 1500 ms, on a
curve that is constantly one half. -/
theorem audit_rawValue_is_elapsed_ms_witness :
    ge (fin 2) (fin 0) = true ∧ ge (fin (7 / 2)) (fin 0) = true
      ∧ audit (fun _ : Unit => fin 2) (fun _ => fin (7 / 2)) (fun _ _ _ => fin (1 / 2)) ()
          = AuditProduct.numeric (fin 1500) (fin (1 / 2)) "1,500 ms" :=
  ⟨by decide!, by decide!,
    (audit_rawValue_is_elapsed_ms (fun _ : Unit => fin 2) (fun _ => fin (7 / 2))
      (fun _ _ _ => fin (1 / 2)) () (by decide!) (by decide!)).trans (by decide!)⟩

/-- C4, as stated, fails: with the page start at the literal 0.100 and the tag
end at the literal 0.350 the rawValue is one unit in the last place below 250,
and a curve that exceeds 0.9 at 250 only is asked at that other value, so the
score is not 1. -/
theorem audit_scenario_rawValue_not_250 :
    (audit (fun _ : Unit => round64 (100 / 1000)) (fun _ => round64 (350 / 1000))
        (fun v _ _ => if v = fin 250 then fin 1 else fin 0) ()).rawValue? ≠ some (fin 250)
      ∧ lt (round64 (9 / 10))
          ((fun v _ _ => if v = fin 250 then fin 1 else fin 0 :
            JSNumber → JSNumber → JSNumber → JSNumber) (fin 250) PODR MEDIAN) = true
      ∧ audit (fun _ : Unit => round64 (100 / 1000)) (fun _ => round64 (350 / 1000))
          (fun v _ _ => if v = fin 250 then fin 1 else fin 0) ()
        = AuditProduct.numeric (fin (8796093022207999 / 35184372088832)) (fin 0)
            "250 ms" := by
  decide!

/-- C4, amended: with the page start at the literal 0.100 and the tag end at
the literal 0.350, for every scoring curve the audit returns a numeric result
whose rawValue is the binary64 value `8796093022207999 / 2^45`
(249.99999999999997, within `10⁻¹³` of 250) and whose displayValue is
"250 ms"; and whenever the curve at that rawValue with control points 500 and
1000 is `>= 0.9` the score is exactly 1. -/
theorem audit_scenario_250ms
    (computeLogNormalScore : JSNumber → JSNumber → JSNumber → JSNumber) :
    (∃ score,
      audit (fun _ : Unit => round64 (100 / 1000)) (fun _ => round64 (350 / 1000))
          computeLogNormalScore ()
        = AuditProduct.numeric (fin (8796093022207999 / 35184372088832)) score "250 ms"
      ∧ (ge (computeLogNormalScore (fin (8796093022207999 / 35184372088832))
            (fin 500) (fin 1000)) (round64 (9 / 10)) = true → score = fin 1))
      ∧ |(250 : ℚ) - 8796093022207999 / 35184372088832| < 1 / 10 ^ 13 := by
  have hraw : fmul (fsub (round64 (350 / 1000)) (round64 (100 / 1000))) (fin 1000)
      = fin (8796093022207999 / 35184372088832) := by decide!
  have hstart : lt (round64 (100 / 1000)) (fin 0) = false := by decide!
  have htag : lt (round64 (350 / 1000)) (fin 0) = false := by decide!
  have hdisp : toLocaleString (mathRound (fin (8796093022207999 / 35184372088832)))
      ++ " ms" = "250 ms" := by decide!
  have h := audit_of_guards_passed (fun _ : Unit => round64 (100 / 1000))
    (fun _ => round64 (350 / 1000)) computeLogNormalScore () hstart htag
  rw [hraw, hdisp] at h
  exact ⟨⟨_, h, fun hcurve => if_pos hcurve⟩, by decide!⟩

/-- Witness of C4 (amended): a curve that is constantly 0.95, so that the
score is 1. -/
theorem audit_scenario_250ms_witness :
    ge ((fun _ _ _ => round64 (95 / 100) : JSNumber → JSNumber → JSNumber → JSNumber)
        (fin (8796093022207999 / 35184372088832)) (fin 500) (fin 1000))
        (round64 (9 / 10)) = true
      ∧ audit (fun _ : Unit => round64 (100 / 1000)) (fun _ => round64 (350 / 1000))
          (fun _ _ _ => round64 (95 / 100)) ()
        = AuditProduct.numeric (fin (8796093022207999 / 35184372088832)) (fin 1)
            "250 ms" := by
  refine ⟨by decide!, ?_⟩
  obtain ⟨score, h, hs⟩ := (audit_scenario_250ms (fun _ _ _ => round64 (95 / 100))).1
  rw [h, hs (by decide!)]

/-- C5: in every numeric result the score is 1 when the curve's value `s` at
(rawValue, 500, 1000) is `>= 0.9` and is `s` otherwise; so when `s` lies in
`[0, 1]` the score lies in `[0, 1]` and is never both `>= 0.9` and `< 1`. -/
theorem audit_score_clamped {Records : Type}
    (getPageStartTime getTagEndTime : Records → JSNumber)
    (computeLogNormalScore : JSNumber → JSNumber → JSNumber → JSNumber)
    (networkRecords : Records) (rawValue score : JSNumber) (displayValue : String)
    (h : audit getPageStartTime getTagEndTime computeLogNormalScore networkRecords
      = AuditProduct.numeric rawValue score displayValue) :
    (ge (computeLogNormalScore rawValue (fin 500) (fin 1000)) (round64 (9 / 10)) = true
        → score = fin 1)
      ∧ (ge (computeLogNormalScore rawValue (fin 500) (fin 1000)) (round64 (9 / 10))
          = false → score = computeLogNormalScore rawValue (fin 500) (fin 1000))
      ∧ (ge (computeLogNormalScore rawValue (fin 500) (fin 1000)) (fin 0) = true
          → ge (fin 1) (computeLogNormalScore rawValue (fin 500) (fin 1000)) = true
          → ge score (fin 0) = true ∧ ge (fin 1) score = true
            ∧ ¬ (ge score (round64 (9 / 10)) = true ∧ lt score (fin 1) = true)) := by
  obtain ⟨h1, h2⟩ := guards_passed_of_numeric _ _ _ _ _ _ _ h
  rw [audit_of_guards_passed _ _ _ _ h1 h2] at h
  injection h with hr hs hd
  subst hr
  by_cases hc : ge (computeLogNormalScore
      (fmul (fsub (getTagEndTime networkRecords) (getPageStartTime networkRecords))
        (fin 1000)) (fin 500) (fin 1000)) (round64 (9 / 10)) = true
  · rw [if_pos hc] at hs
    subst hs
    refine ⟨fun _ => rfl, fun hf => ?_, fun _ _ => ⟨by decide!, by decide!, ?_⟩⟩
    · rw [hc] at hf
      cases hf
    · rintro ⟨_, hlt⟩
      revert hlt
      decide!
  · rw [if_neg hc] at hs
    subst hs
    refine ⟨fun ht => absurd ht hc, fun _ => rfl, fun h0 h1 => ⟨h0, h1, ?_⟩⟩
    rintro ⟨hge, _⟩
    exact hc hge

/-- Witness of C5: page start 0.1 s, tag end 2 s, a curve constantly 0.95;
the score is clamped to 1. -/
theorem audit_score_clamped_witness :
    audit (fun _ : Unit => round64 (1 / 10)) (fun _ => fin 2)
        (fun _ _ _ => round64 (95 / 100)) ()
      = AuditProduct.numeric (fin 1900) (fin 1) "1,900 ms"
    ∧ ge (round64 (95 / 100)) (round64 (9 / 10)) = true
    ∧ ge (round64 (95 / 100)) (fin 0) = true
    ∧ ge (fin 1) (round64 (95 / 100)) = true
    ∧ (ge (fin 1) (fin 0) = true ∧ ge (fin 1) (fin 1) = true
        ∧ ¬ (ge (fin 1) (round64 (9 / 10)) = true ∧ lt (fin 1) (fin 1) = true)) :=
  ⟨by decide!, by decide!, by decide!, by decide!,
    (audit_score_clamped (fun _ : Unit => round64 (1 / 10)) (fun _ => fin 2)
      (fun _ _ _ => round64 (95 / 100)) () (fin 1900) (fin 1) "1,900 ms"
      (by decide!)).2.2 (by decide!) (by decide!)⟩

/-- C10, as stated, fails: both sentinels are checked, yet a tag end time
before the page start time (3 s against 5 s) gives the numeric result with the
negative rawValue -2000. -/
theorem audit_negative_duration :
    audit (fun _ : Unit => fin 5) (fun _ => fin 3) (fun _ _ _ => fin 0) ()
        = AuditProduct.numeric (fin (-2000)) (fin 0) "-2,000 ms"
      ∧ lt (fin (-2000)) (fin 0) = true
      ∧ ge (fin (-2000)) (fin 0) = false := by
  decide!

/-- C10, amended: a numeric result means that neither the page start time nor
the tag end time was negative, and its rawValue is not negative whenever the
tag end time is `>=` the page start time. -/
theorem audit_rawValue_not_negative {Records : Type}
    (getPageStartTime getTagEndTime : Records → JSNumber)
    (computeLogNormalScore : JSNumber → JSNumber → JSNumber → JSNumber)
    (networkRecords : Records) (rawValue score : JSNumber) (displayValue : String)
    (h : audit getPageStartTime getTagEndTime computeLogNormalScore networkRecords
      = AuditProduct.numeric rawValue score displayValue) :
    lt (getPageStartTime networkRecords) (fin 0) = false
      ∧ lt (getTagEndTime networkRecords) (fin 0) = false
      ∧ (ge (getTagEndTime networkRecords) (getPageStartTime networkRecords) = true
          → lt rawValue (fin 0) = false) := by
  obtain ⟨h1, h2⟩ := guards_passed_of_numeric _ _ _ _ _ _ _ h
  rw [audit_of_guards_passed _ _ _ _ h1 h2] at h
  injection h with hr hs hd
  subst hr
  exact ⟨h1, h2, elapsed_not_neg_of_ge _ _⟩

/-- Witness of C10 (amended): page start 0.1 s, tag end 2 s. -/
theorem audit_rawValue_not_negative_witness :
    audit (fun _ : Unit => round64 (1 / 10)) (fun _ => fin 2) (fun _ _ _ => fin 0) ()
        = AuditProduct.numeric (fin 1900) (fin 0) "1,900 ms"
      ∧ ge (fin 2) (round64 (1 / 10)) = true
      ∧ lt (fin 1900) (fin 0) = false :=
  ⟨by decide!, by decide!,
    (audit_rawValue_not_negative (fun _ : Unit => round64 (1 / 10)) (fun _ => fin 2)
      (fun _ _ _ => fin 0) () (fin 1900) (fin 0) "1,900 ms" (by decide!)).2.2
      (by decide!)⟩

/-! ## Facts about the resource classifier -/

theorem splitLabels_ne_nil (s : List Char) : splitLabels s ≠ [] := by
  cases s with
  | nil => simp [splitLabels]
  | cons c cs =>
    unfold splitLabels
    split_ifs
    · simp
    · split <;> simp

theorem joinLabels_splitLabels (s : List Char) : joinLabels (splitLabels s) = s := by
  induction s with
  | nil => rfl
  | cons c cs ih =>
    unfold splitLabels
    split_ifs with hc
    · cases hs : splitLabels cs with
      | nil => exact absurd hs (splitLabels_ne_nil cs)
      | cons l ls =>
        rw [hs] at ih
        simp [joinLabels, ih, hc]
    · cases hs : splitLabels cs with
      | nil => exact absurd hs (splitLabels_ne_nil cs)
      | cons l ls =>
        rw [hs] at ih
        cases ls with
        | nil => simpa [joinLabels] using ih
        | cons l2 ls2 =>
          simp only [joinLabels] at ih ⊢
          simp [ih]

theorem splitLabels_append_dot (a b : List Char) :
    splitLabels (a ++ '.' :: b) = splitLabels a ++ splitLabels b := by
  induction a with
  | nil => simp [splitLabels]
  | cons c cs ih =>
    by_cases hc : c = '.'
    · simp [splitLabels, hc, ih]
    · cases hs : splitLabels cs with
      | nil => exact absurd hs (splitLabels_ne_nil cs)
      | cons l ls => simp [splitLabels, hc, ih, hs]

theorem joinLabels_append (a b : List (List Char)) (ha : a ≠ []) (hb : b ≠ []) :
    joinLabels (a ++ b) = joinLabels a ++ '.' :: joinLabels b := by
  induction a with
  | nil => exact absurd rfl ha
  | cons l ls ih =>
    cases ls with
    | nil =>
      cases b with
      | nil => exact absurd rfl hb
      | cons m ms => simp [joinLabels]
    | cons l2 ls2 =>
      have := ih (by simp)
      simp only [List.cons_append, joinLabels] at this ⊢
      simp [this]

/-- The label sequence of `t` is a suffix of the label sequence of `s` exactly
when `s` is `t` or ends with a dot followed by `t`. -/
theorem splitLabels_suffix_iff (s t : List Char) :
    splitLabels t <:+ splitLabels s ↔ s = t ∨ ∃ sub, s = sub ++ '.' :: t := by
  constructor
  · rintro ⟨pre, hpre⟩
    have hs : joinLabels (pre ++ splitLabels t) = s := by
      rw [hpre, joinLabels_splitLabels]
    cases pre with
    | nil =>
      left
      rw [← hs, List.nil_append, joinLabels_splitLabels]
    | cons l ls =>
      right
      refine ⟨joinLabels (l :: ls), ?_⟩
      rw [← hs, joinLabels_append _ _ (by simp) (splitLabels_ne_nil t),
        joinLabels_splitLabels]
  · rintro (h | ⟨sub, h⟩)
    · rw [h]
    · rw [h, splitLabels_append_dot]
      exact List.suffix_append _ _

theorem includes_iff (s pat : List Char) : includes s pat = true ↔ pat <:+: s := by
  induction s with
  | nil => simp [includes, List.isEmpty_iff]
  | cons c cs ih =>
    rw [includes, Bool.or_eq_true, ih, List.infix_cons_iff, List.isPrefixOf_iff_prefix]

theorem endsWith_iff (s suffix : List Char) : endsWith s suffix = true ↔ suffix <:+ s := by
  unfold endsWith
  rw [Bool.and_eq_true, decide_eq_true_iff, beq_iff_eq]
  constructor
  · rintro ⟨_, h⟩
    rw [← h]
    exact List.drop_suffix _ _
  · rintro ⟨pre, rfl⟩
    refine ⟨by simp, ?_⟩
    simp

/-! ## The classifier predicates -/

/-- C6: `isGoogleAds` is true exactly when `url.host`, folded to lower case,
is `doubleclick.net` or `googlesyndication.com` or ends with a dot followed by
one of them; for a host already in lower case that is a condition on
`url.host` as it stands; the two hosts and their subdomains give true,
look-alike hosts give false; scheme, path, query and fragment do not matter. -/
theorem isGoogleAds_iff_host_or_subdomain :
    (∀ url : ParsedURL, isGoogleAds url = true ↔
      ((url.host.toList.map Char.toLower = "doubleclick.net".toList
          ∨ ∃ sub, url.host.toList.map Char.toLower
              = sub ++ '.' :: "doubleclick.net".toList)
        ∨ (url.host.toList.map Char.toLower = "googlesyndication.com".toList
          ∨ ∃ sub, url.host.toList.map Char.toLower
              = sub ++ '.' :: "googlesyndication.com".toList)))
      ∧ (∀ url : ParsedURL, (∀ c ∈ url.host.toList, c.toLower = c) →
          (isGoogleAds url = true ↔
            ((url.host = "doubleclick.net"
                ∨ ∃ sub, url.host.toList = sub ++ '.' :: "doubleclick.net".toList)
              ∨ (url.host = "googlesyndication.com"
                ∨ ∃ sub, url.host.toList = sub ++ '.' :: "googlesyndication.com".toList))))
      ∧ isGoogleAds ⟨"https", "doubleclick.net", "/", "", ""⟩ = true
      ∧ isGoogleAds ⟨"https", "googlesyndication.com", "/", "", ""⟩ = true
      ∧ isGoogleAds ⟨"https", "pagead2.doubleclick.net", "/", "", ""⟩ = true
      ∧ isGoogleAds ⟨"https", "a.b.googlesyndication.com", "/", "", ""⟩ = true
      ∧ isGoogleAds ⟨"https", "WWW.DoubleClick.NET", "/", "", ""⟩ = true
      ∧ isGoogleAds ⟨"https", "notdoubleclick.net", "/", "", ""⟩ = false
      ∧ isGoogleAds ⟨"https", "doubleclick.net.evil.com", "/", "", ""⟩ = false
      ∧ isGoogleAds ⟨"https", "evil-doubleclick.net.attacker.com", "/", "", ""⟩ = false
      ∧ isGoogleAds ⟨"https", "facebook.com", "/", "", ""⟩ = false
      ∧ (∀ (url : ParsedURL) (scheme path query fragment : String),
          isGoogleAds ⟨scheme, url.host, path, query, fragment⟩ = isGoogleAds url) := by
  have key : ∀ url : ParsedURL, isGoogleAds url = true ↔
      ((url.host.toList.map Char.toLower = "doubleclick.net".toList
          ∨ ∃ sub, url.host.toList.map Char.toLower
              = sub ++ '.' :: "doubleclick.net".toList)
        ∨ (url.host.toList.map Char.toLower = "googlesyndication.com".toList
          ∨ ∃ sub, url.host.toList.map Char.toLower
              = sub ++ '.' :: "googlesyndication.com".toList)) := by
    intro url
    unfold isGoogleAds AD_HOSTS
    simp only [List.any_cons, List.any_nil, Bool.or_false, Bool.or_eq_true,
      List.isSuffixOf_iff_suffix, splitLabels_suffix_iff]
  refine ⟨key, fun url hlow => ?_, by decide, by decide, by decide, by decide, by decide,
    by decide, by decide, by decide, by decide, fun _ _ _ _ _ => rfl⟩
  have hmap : url.host.toList.map Char.toLower = url.host.toList := by
    conv_rhs => rw [← List.map_id url.host.toList]
    exact List.map_congr_left hlow
  have hstr : ∀ t : String, url.host.toList = t.toList ↔ url.host = t := fun t =>
    ⟨fun h => String.ext h, fun h => by rw [h]⟩
  rw [key url, hmap, hstr, hstr]

/-- Witness of C6: the lower-case host `pagead2.doubleclick.net` is a
subdomain of `doubleclick.net`, so `isGoogleAds` is true on it. -/
theorem isGoogleAds_iff_host_or_subdomain_witness :
    (∀ c ∈ "pagead2.doubleclick.net".toList, c.toLower = c)
      ∧ isGoogleAds ⟨"https", "pagead2.doubleclick.net", "/pcs/activeview", "", ""⟩ = true :=
  ⟨by decide,
    (isGoogleAds_iff_host_or_subdomain.2.1
      ⟨"https", "pagead2.doubleclick.net", "/pcs/activeview", "", ""⟩ (by decide)).mpr
      (Or.inl (Or.inr ⟨"pagead2".toList, by decide⟩))⟩

/-- C7: `isGptTag` is true exactly when the path ends with `/tag/js/gpt.js`,
and changing, adding or removing the query string or the fragment does not
change the result. -/
theorem isGptTag_iff_path_suffix :
    (∀ url : ParsedURL, isGptTag url = true ↔
      ∃ front, url.path.toList = front ++ "/tag/js/gpt.js".toList)
      ∧ (∀ (url : ParsedURL) (query fragment : String),
          isGptTag ⟨url.scheme, url.host, url.path, query, fragment⟩ = isGptTag url) := by
  refine ⟨fun url => ?_, fun _ _ _ => rfl⟩
  unfold isGptTag
  rw [endsWith_iff]
  exact ⟨fun ⟨t, ht⟩ => ⟨t, ht.symm⟩, fun ⟨t, ht⟩ => ⟨t, ht.symm⟩⟩

/-- C8: `hasAdRequestPath` is true exactly when the path contains
`/gampad/ads`, whatever the scheme, host, query string and fragment are. -/
theorem hasAdRequestPath_iff_path_contains :
    (∀ url : ParsedURL, hasAdRequestPath url = true ↔
      ∃ front back, url.path.toList = front ++ "/gampad/ads".toList ++ back)
      ∧ (∀ (url : ParsedURL) (scheme host query fragment : String),
          hasAdRequestPath ⟨scheme, host, url.path, query, fragment⟩
            = hasAdRequestPath url) := by
  refine ⟨fun url => ?_, fun _ _ _ _ _ => rfl⟩
  unfold hasAdRequestPath
  rw [includes_iff]
  exact ⟨fun ⟨a, b, h⟩ => ⟨a, b, h.symm⟩, fun ⟨a, b, h⟩ => ⟨a, b, h.symm⟩⟩

/-- C9: `hasImpressionPath` is true exactly when the path contains `/pcs/view`
or contains `/pagead/adview`. -/
theorem hasImpressionPath_iff_path_contains (url : ParsedURL) :
    hasImpressionPath url = true ↔
      ((∃ front back, url.path.toList = front ++ "/pcs/view".toList ++ back)
        ∨ ∃ front back, url.path.toList = front ++ "/pagead/adview".toList ++ back) := by
  unfold hasImpressionPath
  rw [Bool.or_eq_true, includes_iff, includes_iff]
  exact or_congr
    ⟨fun ⟨a, b, h⟩ => ⟨a, b, h.symm⟩, fun ⟨a, b, h⟩ => ⟨a, b, h.symm⟩⟩
    ⟨fun ⟨a, b, h⟩ => ⟨a, b, h.symm⟩, fun ⟨a, b, h⟩ => ⟨a, b, h.symm⟩⟩

/-! ## The cases of `test/utils/resource-classification_test.js` -/

/-- The seven cases of the `#isGoogleAds` suite. -/
theorem isGoogleAds_test_cases :
    isGoogleAds ⟨"https", "doubleclick.net", "/gpt/js/pubads.js", "", ""⟩ = true
      ∧ isGoogleAds ⟨"https", "googlesyndication.com", "/gpt/js/pubads.js", "", ""⟩ = true
      ∧ isGoogleAds ⟨"https", "www.doubleclick.net", "/tag/js/gpt.js", "?foo=bar", "#baz"⟩
          = true
      ∧ isGoogleAds
          ⟨"https", "www.googlesyndication.com", "/tag/js/gpt.js", "?foo=bar", "#baz"⟩ = true
      ∧ isGoogleAds ⟨"https", "pagead2.doubleclick.net", "/pcs/activeview", "", ""⟩ = true
      ∧ isGoogleAds ⟨"https", "pagead2.googlesyndication.com", "/pcs/activeview", "", ""⟩
          = true
      ∧ isGoogleAds ⟨"https", "facebook.com", "/foo", "?bar=baz", "#bat"⟩ = false := by
  decide

/-- The cases of the `#hasAdRequestPath` and `#hasImpressionPath` suites. -/
theorem path_test_cases :
    hasAdRequestPath ⟨"https", "securepubads.g.doubleclick.net", "/gampad/ads", "?bar=baz", ""⟩
        = true
      ∧ hasAdRequestPath ⟨"https", "googlesyndication.com", "/file/folder", "?bar=baz", ""⟩
          = false
      ∧ hasImpressionPath ⟨"https", "googlesyndication.com", "/pcs/view", "?bar=baz", ""⟩
          = true
      ∧ hasImpressionPath ⟨"https", "googlesyndication.com", "/pagead/adview", "?bar=baz", ""⟩
          = true
      ∧ hasImpressionPath
          ⟨"https", "googlesyndication.com", "/file/folder/foo", "?bar=baz", ""⟩ = false := by
  decide

/-- The five cases of the `#isGptTag` suite. -/
theorem isGptTag_test_cases :
    isGptTag ⟨"http", "www.googletagservices.com", "/tag/js/gpt.js", "", ""⟩ = true
      ∧ isGptTag ⟨"https", "www.googletagservices.com", "/tag/js/gpt.js", "", "#foo"⟩ = true
      ∧ isGptTag ⟨"https", "www.googletagservices.com", "/tag/js/gpt.js", "?foo=bar", ""⟩
          = true
      ∧ isGptTag ⟨"https", "www.googletagservices.com", "/tag/js/gpt.js", "?foo=bar", "#baz"⟩
          = true
      ∧ isGptTag ⟨"https", "facebook.com", "/foo", "?bar=baz", ""⟩ = false := by
  decide

end AdSpeedInsights
